import Mathlib

/-!
Verification development for the RETRO-LABYRINTH repository.

Shallow embedding of the deterministic core of the game:
  * `src/js/maze-generator.js` — Mulberry32 RNG, recursive-backtracking maze
    generation with a loop-opening pass, spatial queries (`istWand`,
    `findeFreiePosition`);
  * `src/js/network-manager.js` — the `NetworkManager` message/timer state;
  * `src/js/main.js` — pickup bookkeeping (`spawnNetzwerkPickup`,
    `entfernePickup`) and the registered network callbacks.

Conventions of the embedding:
  * JS 32-bit integer bit patterns are modelled as `Nat` values below `2^32`;
    every operation that JS performs modulo `2^32` carries an explicit `% 2^32`.
  * JS doubles produced by the RNG are `out / 2^32` for a 32-bit `out`; the two
    consumptions of such doubles in the maze generator
    (`Math.floor(r * n)` for `n ≤ 4` and `r < 0.2`) are exact integer
    computations on `out`, spelled out below.
  * World coordinates are modelled as exact rationals (`Rat`); the only
    arithmetic performed on them in the embedded code (multiplication and
    division by the cell size 2.0, addition of 0.5) is exact in binary
    floating point for the magnitudes involved.
  * Fallible JS operations (reading an index of `undefined` raises a
    TypeError) are modelled with `Option`: `none` is a thrown exception.
    Assigning one past the end of a JS array appends; assigning further out
    creates holes that read back as `undefined`, which compares unequal to
    both `0` and `1` under `===`; the sentinel cell value `2` stands for such
    a hole.
-/

namespace RetroLabyrinth

/-! ## Mulberry32 seeded RNG (maze-generator.js, lines 24-45) -/

/-- `2^32`, the modulus of all JS 32-bit integer arithmetic. -/
def M32 : Nat := 4294967296

/-- One call of `seededRandom()` (maze-generator.js lines 31-37), acting on the
bit pattern of the global `_seedState`.  Returns the updated state together
with the 32-bit numerator `out` of the produced float `out / 2^32`.
`Math.imul` is multiplication mod `2^32`; `x >>> k` is a logical shift on the
pattern; the JS additions feed into 32-bit conversions, hence the `% M32`. -/
def seededRandomStep (s : Nat) : Nat × Nat :=
  let s1 := (s + 0x6D2B79F5) % M32
  let t1 := ((s1 ^^^ (s1 >>> 15)) * (1 ||| s1)) % M32
  let t2 := ((t1 + ((t1 ^^^ (t1 >>> 7)) * (61 ||| t1)) % M32) % M32) ^^^ t1
  (s1, t2 ^^^ (t2 >>> 14))

/-- `Math.floor(seededRandom() * n)` for the float `out / 2^32`; exact for the
small factors `n ≤ 4` used by the generator, because `out * n < 2^34 < 2^53`. -/
def floorRandMul (out n : Nat) : Nat := out * n / M32

/-- `seededRandom() < 0.2` (the `durchbruchRate` test, maze-generator.js line
409).  The double literal `0.2` is exactly `3602879701896397 / 2^54`, and the
comparison of the exact double `out / 2^32 = out * 2^22 / 2^54` with it is
exact, so the JS test is precisely this integer comparison. -/
def unterDurchbruchRate (out : Nat) : Bool := out * 4194304 < 3602879701896397

/-! ## Grids and JS array semantics -/

/-- A maze grid: `1` = Wand (wall), `0` = Gang (open corridor), `2` = hole
(see the conventions above; holes never arise on the executions the claims
are about). -/
abbrev Grid := List (List Nat)

/-- The cell size `WAND_GROESSE = 2.0` (maze-generator.js line 16). -/
def WAND_GROESSE : Rat := 2

/-- Read `lab[y][x]`: `none` models JS `undefined` (and the claims only read
it at positions where the row itself exists, so no TypeError is possible). -/
def zelle (lab : Grid) (y x : Nat) : Option Nat :=
  (lab[y]?).bind fun r => r[x]?

/-- JS assignment `row[x] = v` inside an existing row: in range it updates,
at the end it appends, past the end it creates holes (sentinel `2`). -/
def jsZeileSet (r : List Nat) (x v : Nat) : List Nat :=
  if x < r.length then r.set x v
  else r ++ List.replicate (x - r.length) 2 ++ [v]

/-- JS assignment `lab[y][x] = v`: `none` models the TypeError thrown when
`lab[y]` is `undefined`. -/
def jsSetZelle (lab : Grid) (y x v : Nat) : Option Grid :=
  match lab[y]? with
  | none => none
  | some r => some (lab.set y (jsZeileSet r x v))

/-- JS assignment `bes[y][x] = v` for the boolean `besucht` matrix; holes read
back as `undefined`, which is falsy, hence the `false` padding. -/
def jsZeileSetB (r : List Bool) (x : Nat) (v : Bool) : List Bool :=
  if x < r.length then r.set x v
  else r ++ List.replicate (x - r.length) false ++ [v]

/-- JS assignment `bes[y][x] = v`; `none` is the TypeError on a missing row. -/
def jsSetBesucht (bes : List (List Bool)) (y x : Nat) (v : Bool) :
    Option (List (List Bool)) :=
  match bes[y]? with
  | none => none
  | some r => some (bes.set y (jsZeileSetB r x v))

/-- Read `besucht[ny][nx]` under the bounds guard of `graben`; a falsy
`undefined` reads as `false`. -/
def besuchtGet (bes : List (List Bool)) (y x : Nat) : Bool :=
  (bes.getD y []).getD x false

/-! ## Fisher-Yates shuffle `mischen` (maze-generator.js lines 370-376) -/

/-- The destructuring swap `[arr[i], arr[j]] = [arr[j], arr[i]]`. -/
def tausche {α : Type} (l : List α) (i j : Nat) : List α :=
  match l[i]?, l[j]? with
  | some a, some b => (l.set i b).set j a
  | _, _ => l

/-- The loop of `mischen`, counting `i` down from `arr.length - 1` to `1`;
each step draws `j = Math.floor(seededRandom() * (i + 1))` and swaps. -/
def mischenAux {α : Type} (arr : List α) (rng : Nat) : Nat → List α × Nat
  | 0 => (arr, rng)
  | Nat.succ k =>
    let s := seededRandomStep rng
    let j := floorRandMul s.2 (Nat.succ k + 1)
    mischenAux (tausche arr (Nat.succ k) j) s.1 k

/-- `mischen` (Fisher-Yates with the seeded RNG). -/
def mischen {α : Type} (arr : List α) (rng : Nat) : List α × Nat :=
  mischenAux arr rng (arr.length - 1)

/-! ## The carving pass `graben` (maze-generator.js lines 359-402) -/

/-- The direction list `richtungen` in source order (oben, rechts, unten,
links), as `(dx, dy)` pairs. -/
def richtungen : List (Int × Int) := [(0, -1), (1, 0), (0, 1), (-1, 0)]

/-- The mutable state of `generateMaze`: the grid, the `besucht` matrix and
the global RNG state. -/
structure MZ where
  lab : Grid
  bes : List (List Bool)
  rng : Nat
  deriving Repr, DecidableEq

/-- The `for (const richtung of gemischt)` loop body of `graben`, with the
recursive call abstracted as `rec` (instantiated with `graben` at one less
fuel).  The guard and the wall-carving write mirror lines 388-397. -/
def grabenSchleife (breite hoehe : Nat) (rec : Nat → Nat → MZ → Option MZ)
    (zx zy : Nat) : List (Int × Int) → MZ → Option MZ
  | [], st => some st
  | (dx, dy) :: rest, st =>
    let nx : Int := (zx : Int) + dx
    let ny : Int := (zy : Int) + dy
    if 0 ≤ nx ∧ nx < (breite : Int) ∧ 0 ≤ ny ∧ ny < (hoehe : Int) ∧
        besuchtGet st.bes ny.toNat nx.toNat = false then
      match jsSetZelle st.lab (2 * (zy : Int) + 1 + dy).toNat
          (2 * (zx : Int) + 1 + dx).toNat 0 with
      | none => none
      | some lab2 =>
        match rec nx.toNat ny.toNat { st with lab := lab2 } with
        | none => none
        | some st2 => grabenSchleife breite hoehe rec zx zy rest st2
    else grabenSchleife breite hoehe rec zx zy rest st

/-- `graben(zx, zy)` with fuel: marks the cell visited (a TypeError when the
`besucht` row is missing, which happens exactly when `hoehe = 0`), opens the
cell in the raster, shuffles the directions and recurses.  The fuel only
bounds the recursion depth; `generateMaze` supplies `breite * hoehe + 1`,
which the depth (one call per freshly visited cell) never reaches. -/
def graben (breite hoehe : Nat) : Nat → Nat → Nat → MZ → Option MZ
  | 0, _, _, _ => none
  | fuel + 1, zx, zy, st =>
    match jsSetBesucht st.bes zy zx true with
    | none => none
    | some bes2 =>
      match jsSetZelle st.lab (2 * zy + 1) (2 * zx + 1) 0 with
      | none => none
      | some lab2 =>
        let m := mischen richtungen st.rng
        grabenSchleife breite hoehe (graben breite hoehe fuel) zx zy m.1
          { lab := lab2, bes := bes2, rng := m.2 }

/-! ## The loop-opening pass (maze-generator.js lines 404-421) -/

/-- Count of orthogonally adjacent open corridors, with the exact bounds
guards of lines 412-415. -/
def zaehleNachbarGaenge (lab : Grid) (rasterBreite rasterHoehe y x : Nat) : Nat :=
  (if 0 < y ∧ zelle lab (y - 1) x = some 0 then 1 else 0) +
  (if y < rasterHoehe - 1 ∧ zelle lab (y + 1) x = some 0 then 1 else 0) +
  (if 0 < x ∧ zelle lab y (x - 1) = some 0 then 1 else 0) +
  (if x < rasterBreite - 1 ∧ zelle lab y (x + 1) = some 0 then 1 else 0)

/-- One cell of the loop-opening pass: the RNG is drawn only when the cell is
a wall (JS short-circuit `&&`), and the wall is opened only when it has at
least two adjacent corridors. -/
def durchbruchZelle (rasterBreite rasterHoehe : Nat) (lab : Grid) (rng : Nat)
    (y x : Nat) : Option (Grid × Nat) :=
  if zelle lab y x = some 1 then
    let s := seededRandomStep rng
    if unterDurchbruchRate s.2 then
      if 2 ≤ zaehleNachbarGaenge lab rasterBreite rasterHoehe y x then
        match jsSetZelle lab y x 0 with
        | none => none
        | some lab2 => some (lab2, s.1)
      else some (lab, s.1)
    else some (lab, s.1)
  else some (lab, rng)

/-- The inner `for (x ...)` loop of the pass over one row. -/
def durchbruchZeile (rasterBreite rasterHoehe y : Nat) :
    List Nat → Grid × Nat → Option (Grid × Nat)
  | [], s => some s
  | x :: rest, s =>
    match durchbruchZelle rasterBreite rasterHoehe s.1 s.2 y x with
    | none => none
    | some s2 => durchbruchZeile rasterBreite rasterHoehe y rest s2

/-- The outer `for (y ...)` loop of the pass. -/
def durchbruchPass (rasterBreite rasterHoehe : Nat) :
    List Nat → Grid × Nat → Option (Grid × Nat)
  | [], s => some s
  | y :: rest, s =>
    match durchbruchZeile rasterBreite rasterHoehe y
        (List.range' 1 (rasterBreite - 2)) s with
    | none => none
    | some s2 => durchbruchPass rasterBreite rasterHoehe rest s2

/-! ## `generateMaze` (maze-generator.js lines 332-425) -/

/-- `generateMaze(breite, hoehe, seed)`.  `rngGlobal` is the value of the
module-global `_seedState` before the call; `setSeed(seed)` on entry discards
it.  The result pairs the returned grid with the final global RNG state;
`none` models a thrown TypeError. -/
def generateMaze (breite hoehe seed : Nat) (rngGlobal : Nat) :
    Option (Grid × Nat) :=
  let rng0 := seed
  let rasterBreite := 2 * breite + 1
  let rasterHoehe := 2 * hoehe + 1
  let lab0 : Grid := List.replicate rasterHoehe (List.replicate rasterBreite 1)
  let bes0 : List (List Bool) :=
    List.replicate hoehe (List.replicate breite false)
  match graben breite hoehe (breite * hoehe + 1) 0 0 ⟨lab0, bes0, rng0⟩ with
  | none => none
  | some st =>
    durchbruchPass rasterBreite rasterHoehe
      (List.range' 1 (rasterHoehe - 2)) (st.lab, st.rng)

/-! ## Spatial queries (maze-generator.js lines 432-471) -/

/-- The row-major list of open-cell world-coordinate centers collected by
`findeFreiePosition` (lines 433-443): `{x: x * WAND_GROESSE, z: y * WAND_GROESSE}`. -/
def freiePositionen (lab : Grid) : List (Rat × Rat) :=
  (lab.enum.map fun yr =>
    yr.2.enum.filterMap fun xc =>
      if xc.2 = 0 then some ((xc.1 : Rat) * WAND_GROESSE, (yr.1 : Rat) * WAND_GROESSE)
      else none).flatten

/-- `findeFreiePosition(labyrinth, index)`.  `zufall` is the value of the one
`Math.random()` call of the `index < 0` branch.  `none` models the JS result
`undefined` (empty list, or `index % 0 = NaN`). -/
def findeFreiePosition (lab : Grid) (index : Int) (zufall : Rat) :
    Option (Rat × Rat) :=
  let fp := freiePositionen lab
  if 0 ≤ index then fp[index.toNat % fp.length]?
  else fp[(⌊zufall * fp.length⌋).toNat]?

/-- `istWand(labyrinth, weltX, weltZ)` (lines 460-471): grid indices are
`Math.floor(coord / WAND_GROESSE + 0.5)`; out of bounds is solid; the column
bound is the length of row 0 (never read when the grid is empty, because the
`rasterZ` bounds test short-circuits first). -/
def istWand (lab : Grid) (weltX weltZ : Rat) : Bool :=
  let rasterX : Int := ⌊weltX / WAND_GROESSE + 1 / 2⌋
  let rasterZ : Int := ⌊weltZ / WAND_GROESSE + 1 / 2⌋
  if rasterZ < 0 ∨ (lab.length : Int) ≤ rasterZ ∨
      rasterX < 0 ∨ ((lab.getD 0 []).length : Int) ≤ rasterX then true
  else zelle lab rasterZ.toNat rasterX.toNat == some 1

/-! ## network-manager.js: messages and the NetworkManager state -/

/-- Message payloads (`daten`) of the protocol vocabulary, as far as the
claims need them. -/
inductive Daten where
  | seedD (seed : Nat)
  | positionD (x y z rotY rotX : Rat)
  | trefferD (schaden : Nat)
  | pickupCollectedD (id : String)
  | newPickupD (id : String) (pos : Rat × Rat) (typ : Option String)
  | leerD
  deriving Repr, DecidableEq

/-- The `{typ, daten}` envelope sent over the data channel. -/
structure Nachricht where
  typ : String
  daten : Daten
  deriving Repr, DecidableEq

/-- The PeerJS data connection, reduced to what `sende` inspects: its `open`
flag (named `offen` because `open` is reserved in Lean) and the list of
messages passed to `conn.send`. -/
structure DataConnection where
  offen : Bool
  gesendet : List Nachricht
  deriving Repr, DecidableEq

/-- The `NetworkManager` fields touched by the embedded methods:
`verbindung`, `verbunden`, `_positionsTimer`, `_letztePosition`, and the
status text set through `_setzeStatus`. -/
structure NetworkManager where
  verbindung : Option DataConnection
  verbunden : Bool
  positionsTimer : Option Nat
  letztePosition : Option Daten
  status : String
  deriving Repr, DecidableEq

/-- `sende(typ, daten)` (network-manager.js lines 312-316): only when a
connection exists and its channel is open is the envelope sent; otherwise
nothing at all happens. -/
def sende (typ : String) (daten : Daten) (nm : NetworkManager) : NetworkManager :=
  match nm.verbindung with
  | some c =>
    if c.offen then
      let c2 : DataConnection :=
        { c with gesendet := c.gesendet ++ [{ typ := typ, daten := daten }] }
      { nm with verbindung := some c2 }
    else nm
  | none => nm

/-- `startePositionsUpdates()` (lines 340-350): a no-op when a timer is
already pending, otherwise it stores the fresh `setInterval` handle
(`timerId` models the handle returned by the runtime). -/
def startePositionsUpdates (timerId : Nat) (nm : NetworkManager) :
    NetworkManager :=
  match nm.positionsTimer with
  | some _ => nm
  | none => { nm with positionsTimer := some timerId }

/-- One firing of the interval callback registered by
`startePositionsUpdates`: it sends the buffered position only when one
exists and `verbunden` holds. -/
def positionsTimerTick (nm : NetworkManager) : NetworkManager :=
  match nm.letztePosition with
  | some p => if nm.verbunden then sende "position" p nm else nm
  | none => nm

/-- The `conn.on('close')` handler (lines 135-143): it clears `verbunden`,
sets the status text to `GETRENNT`, and fires `onSpielerGetrennt` (which in
main.js only removes the remote avatar mesh and never touches the
NetworkManager).  It does not touch `_positionsTimer`. -/
def verbindungCloseHandler (nm : NetworkManager) : NetworkManager :=
  { nm with verbunden := false, status := "GETRENNT" }

/-- `disconnect()` (lines 389-403): cancels the position timer, closes the
connection, clears `verbunden` and sets the status to `OFFLINE`
(`peer.destroy()` concerns state outside this embedding). -/
def disconnect (nm : NetworkManager) : NetworkManager :=
  { nm with
    positionsTimer := none
    verbindung := nm.verbindung.map fun c => { c with offen := false }
    verbunden := false
    status := "OFFLINE" }

/-! ## main.js: pickups and the registered network callbacks -/

/-- A pickup entry of the `pickups` list (main.js), with its Three.js mesh
abstracted to the pickup-type tag it was built from. -/
structure Pickup where
  id : String
  typ : String
  pos : Rat × Rat
  model : String
  deriving Repr, DecidableEq

/-- The slice of main.js game state the pickup claims touch: the `pickups`
list and the scene (`none` before `initSzene`), the scene itself reduced to
the models it contains. -/
structure GameState where
  pickups : List Pickup
  szene : Option (List String)
  deriving Repr, DecidableEq

/-- `erzeugePickupModel(typ)`: builds the mesh for a pickup type; abstracted
to its type tag. -/
def erzeugePickupModel (typ : String) : String := typ

/-- `spawnNetzwerkPickup(id, pos, typ = 'AMMO')` (main.js lines 290-305):
bails out without a scene; otherwise appends a pickup built from `typ`,
which defaults to `AMMO` when the caller passed no third argument
(`typ = none` models the JS `undefined`). -/
def spawnNetzwerkPickup (id : String) (pos : Rat × Rat) (typ : Option String)
    (st : GameState) : GameState :=
  match st.szene with
  | none => st
  | some _ =>
    let t := typ.getD "AMMO"
    { st with pickups :=
        st.pickups ++ [{ id := id, typ := t, pos := pos, model := erzeugePickupModel t }] }

/-- `entfernePickup(id)` (main.js lines 363-372): `findIndex` by id; when
found, the model is removed from the scene and the entry spliced out;
when absent (`idx === -1`) nothing happens. -/
def entfernePickup (id : String) (st : GameState) : GameState :=
  match st.pickups.findIdx? (fun p => p.id == id) with
  | none => st
  | some idx =>
    match st.pickups[idx]? with
    | none => st
    | some p =>
      { pickups := st.pickups.eraseIdx idx
        szene := st.szene.map fun s => s.erase p.model }

/-- The handler main.js registers for new pickups
(`netzwerk.onNewPickup = (id, pos, typ) => spawnNetzwerkPickup(id, pos, typ)`,
lines 643-645). -/
def onNewPickupHandler (id : String) (pos : Rat × Rat) (typ : Option String) :
    GameState → GameState :=
  spawnNetzwerkPickup id pos typ

/-- The `new_pickup` case of `_verarbeiteNachricht` (network-manager.js lines
195-199) composed with the registered handler: the dispatch invokes
`this.onNewPickup(nachricht.daten.id, nachricht.daten.pos)` with two
arguments only, so the three-parameter handler receives `undefined`
(`none`) for `typ` — the payload's `typ` field is dropped. -/
def verarbeiteNewPickup (daten : Daten) (st : GameState) : GameState :=
  match daten with
  | .newPickupD id pos _typ => onNewPickupHandler id pos none st
  | _ => st

/-- The `pickup_collected` case of `_verarbeiteNachricht` (lines 189-193)
composed with the registered handler
(`netzwerk.onPickupCollected = (pickupId) => entfernePickup(pickupId)`). -/
def verarbeitePickupCollected (daten : Daten) (st : GameState) : GameState :=
  match daten with
  | .pickupCollectedD id => entfernePickup id st
  | _ => st

/-! ## Specification-side predicates about grids -/

/-- Orthogonal adjacency of two grid positions. -/
def Nachbar (y x y2 x2 : Nat) : Prop :=
  (y = y2 ∧ (x2 = x + 1 ∨ x = x2 + 1)) ∨ (x = x2 ∧ (y2 = y + 1 ∨ y = y2 + 1))

/-- Reachability from the root raster cell (1,1) (logical cell (0,0)) along
orthogonally adjacent open cells. -/
inductive Erreichbar (lab : Grid) : Nat → Nat → Prop where
  | wurzel : zelle lab 1 1 = some 0 → Erreichbar lab 1 1
  | schritt {y x y2 x2 : Nat} : Erreichbar lab y x → Nachbar y x y2 x2 →
      zelle lab y2 x2 = some 0 → Erreichbar lab y2 x2

/-- Every open cell is reachable from the root. -/
def Zusammenhang (lab : Grid) : Prop :=
  ∀ y x, zelle lab y x = some 0 → Erreichbar lab y x

/-- Between two grids: every open cell of the first is open in the second. -/
def OffenMono (g g2 : Grid) : Prop :=
  ∀ y x, zelle g y x = some 0 → zelle g2 y x = some 0

/-- The grid has exactly the nominal dimensions `(2*hoehe+1) × (2*breite+1)`. -/
def RechteckGrid (breite hoehe : Nat) (lab : Grid) : Prop :=
  lab.length = 2 * hoehe + 1 ∧ ∀ r ∈ lab, r.length = 2 * breite + 1

/-- Every cell of the outer border is a wall. -/
def RandWand (breite hoehe : Nat) (lab : Grid) : Prop :=
  ∀ y x, y ≤ 2 * hoehe → x ≤ 2 * breite →
    (y = 0 ∨ y = 2 * hoehe ∨ x = 0 ∨ x = 2 * breite) → zelle lab y x = some 1

/-- The in-bounds write `lab[y][x] = v` as a total operation (the `some`
value of `jsSetZelle` whenever row `y` exists). -/
def setzeZelle (lab : Grid) (y x v : Nat) : Grid :=
  lab.set y (jsZeileSet (lab.getD y []) x v)

/-- The in-bounds write `bes[y][x] = v` as a total operation (the `some`
value of `jsSetBesucht` whenever row `y` exists). -/
def setzeBesucht (bes : List (List Bool)) (y x : Nat) (v : Bool) :
    List (List Bool) :=
  bes.set y (jsZeileSetB (bes.getD y []) x v)

/-- Dimensions of the `besucht` matrix. -/
def BesDims (breite hoehe : Nat) (bes : List (List Bool)) : Prop :=
  bes.length = hoehe ∧ ∀ r ∈ bes, r.length = breite

/-- Number of `false` entries of one `besucht` row. -/
def unbesuchtZeile (r : List Bool) : Nat := r.countP (fun v => !v)

/-- Number of unvisited logical cells. -/
def unbesucht (bes : List (List Bool)) : Nat := (bes.map unbesuchtZeile).sum

/-- An example NetworkManager with an open connection and no pending timer. -/
def nmBeispiel : NetworkManager :=
  { verbindung := some { offen := true, gesendet := [] }
    verbunden := true
    positionsTimer := none
    letztePosition := none
    status := "VERBUNDEN" }

/-- An example game state with an initialised (empty) scene. -/
def stBeispiel : GameState := { pickups := [], szene := some [] }

/-! ## Theorems -/

/-- C1: `generateMaze(width, height, seed)` is bit-identical across
invocations whatever the global RNG state was beforehand, because
`setSeed(seed)` on entry overwrites that state: the result (grid and final
RNG state alike) depends only on the three arguments. -/
theorem generateMaze_deterministisch (breite hoehe seed g1 g2 : Nat) :
    generateMaze breite hoehe seed g1 = generateMaze breite hoehe seed g2 := rfl

/-- C9: `sende(typ, daten)` never throws; without an open channel it is a
strict no-op on the whole NetworkManager state, and with an open channel it
appends exactly the `{typ, daten}` envelope to the channel. -/
theorem sende_spec (typ : String) (daten : Daten) (nm : NetworkManager) :
    ((∀ c, nm.verbindung = some c → c.offen = false) → sende typ daten nm = nm) ∧
    (∀ c, nm.verbindung = some c → c.offen = true →
      sende typ daten nm =
        { nm with verbindung := some ⟨true, c.gesendet ++ [⟨typ, daten⟩]⟩ }) := by
  constructor
  · intro h
    unfold sende
    cases hv : nm.verbindung with
    | none => rfl
    | some c => simp [h c hv]
  · intro c hv ho
    obtain ⟨o, g⟩ := c
    cases ho
    simp [sende, hv]

/-- C9 witness: on the example manager with an open channel, the envelope is
enqueued. -/
theorem sende_spec_witness :
    sende "treffer" Daten.leerD nmBeispiel =
      { nmBeispiel with verbindung := some ⟨true, [⟨"treffer", Daten.leerD⟩]⟩ } :=
  (sende_spec "treffer" Daten.leerD nmBeispiel).2 ⟨true, []⟩ rfl rfl

/-- C5 counterexample: start the position-update interval, then fire the
connection close handler — the timer handle is still pending afterwards, so
the close event does not cancel the interval timer. -/
theorem verbindungClose_timer_gegenbeispiel :
    (verbindungCloseHandler (startePositionsUpdates 7 nmBeispiel)).positionsTimer
      = some 7 := rfl

/-- C5 (amended): the close handler leaves `_positionsTimer` unchanged (still
pending) and only clears `verbunden`, which makes every subsequent firing of
the interval callback a no-op (nothing is sent); the timer itself is
cancelled only by `disconnect()`. -/
theorem verbindungCloseHandler_timer (nm : NetworkManager) :
    (verbindungCloseHandler nm).positionsTimer = nm.positionsTimer ∧
    (verbindungCloseHandler nm).verbunden = false ∧
    positionsTimerTick (verbindungCloseHandler nm) = verbindungCloseHandler nm ∧
    (disconnect nm).positionsTimer = none := by
  refine ⟨rfl, rfl, ?_, rfl⟩
  unfold positionsTimerTick verbindungCloseHandler
  cases nm.letztePosition <;> simp

/-- C4: the `new_pickup` dispatch passes only `daten.id` and `daten.pos` to
the registered handler and drops `daten.typ`, so the guest instantiates the
pickup with the default type `AMMO` — whatever `typ` the host sent
(`HEALTH`, `MINE`, ...). -/
theorem verarbeiteNewPickup_typ_AMMO (id : String) (pos : Rat × Rat)
    (typ : Option String) (st : GameState) (sz : List String)
    (hsz : st.szene = some sz) :
    (verarbeiteNewPickup (Daten.newPickupD id pos typ) st).pickups =
      st.pickups ++ [{ id := id, typ := "AMMO", pos := pos, model := "AMMO" }] := by
  simp [verarbeiteNewPickup, onNewPickupHandler, spawnNetzwerkPickup, hsz,
    erzeugePickupModel]

/-- C4 witness: a `HEALTH` pickup sent by the host materialises as `AMMO` on
the guest. -/
theorem verarbeiteNewPickup_typ_AMMO_witness :
    (verarbeiteNewPickup (Daten.newPickupD "p1" (2, 4) (some "HEALTH"))
        stBeispiel).pickups =
      [{ id := "p1", typ := "AMMO", pos := (2, 4), model := "AMMO" }] :=
  verarbeiteNewPickup_typ_AMMO "p1" (2, 4) (some "HEALTH") stBeispiel [] rfl

/-- C6: `istWand` converts each world coordinate to a grid index by rounding
`coord / WAND_GROESSE` to the nearest integer (the source's
`Math.floor(coord / WAND_GROESSE + 0.5)` is exactly `round`), answers `true`
whenever the rounded index leaves `[0, rows) × [0, cols)` (with `cols` the
length of row 0), and on an in-bounds index answers `true` exactly when the
indexed cell is a wall. -/
theorem istWand_spec (lab : Grid) (weltX weltZ : Rat) :
    istWand lab weltX weltZ = true ↔
      (round (weltZ / WAND_GROESSE) < 0 ∨
       (lab.length : Int) ≤ round (weltZ / WAND_GROESSE) ∨
       round (weltX / WAND_GROESSE) < 0 ∨
       ((lab.getD 0 []).length : Int) ≤ round (weltX / WAND_GROESSE) ∨
       zelle lab (round (weltZ / WAND_GROESSE)).toNat
         (round (weltX / WAND_GROESSE)).toNat = some 1) := by
  rw [round_eq, round_eq]
  unfold istWand
  simp only []
  split
  · simp_all
    tauto
  · rename_i hnot
    push_neg at hnot
    obtain ⟨hz0, hzlen, hx0, hxlen⟩ := hnot
    simp only [beq_iff_eq]
    constructor
    · intro hc
      exact Or.inr (Or.inr (Or.inr (Or.inr hc)))
    · rintro (hh | hh | hh | hh | hh)
      · exact absurd hh (not_lt.mpr hz0)
      · exact absurd hh (not_le.mpr hzlen)
      · exact absurd hh (not_lt.mpr hx0)
      · exact absurd hh (not_le.mpr hxlen)
      · exact hh

/-- C7: with at least one open cell, `findeFreiePosition(grid, i)` for
`i ≥ 0` returns the `(i mod N)`-th entry of the row-major open-cell list
(`N` the number of open cells) — in particular it returns an entry rather
than erring — and adding any multiple of `N` to the index leaves the result
unchanged. -/
theorem findeFreiePosition_wrap (lab : Grid) (i k : Nat) (r r2 : Rat)
    (h : 0 < (freiePositionen lab).length) :
    findeFreiePosition lab (i : Int) r =
      (freiePositionen lab)[i % (freiePositionen lab).length]? ∧
    (findeFreiePosition lab (i : Int) r).isSome = true ∧
    findeFreiePosition lab ((i : Int) + (k : Int) * ((freiePositionen lab).length : Int)) r2 =
      findeFreiePosition lab (i : Int) r := by
  unfold findeFreiePosition
  have h1 : ((i : Int)).toNat = i := Int.toNat_natCast i
  have h2 : ((i : Int) + (k : Int) * ((freiePositionen lab).length : Int)).toNat
      = i + k * (freiePositionen lab).length :=
    Int.toNat_natCast _
  have hnn : (0 : Int) ≤ (i : Int) := Int.natCast_nonneg i
  have hnn2 : (0 : Int) ≤ (i : Int) + (k : Int) * ((freiePositionen lab).length : Int) := by
    positivity
  rw [if_pos hnn, if_pos hnn2, h1, h2, Nat.add_mul_mod_self_right]
  refine ⟨rfl, ?_, rfl⟩
  rw [List.getElem?_eq_getElem (Nat.mod_lt _ h)]
  rfl

/-- C7 witness: on a concrete grid with two open cells, index 3 wraps to
entry 1 of the open-cell list. -/
theorem findeFreiePosition_wrap_witness :
    0 < (freiePositionen [[1, 1], [1, 0], [0, 1]]).length ∧
    findeFreiePosition [[1, 1], [1, 0], [0, 1]] ((3 : Nat) : Int) 0 =
      (freiePositionen [[1, 1], [1, 0], [0, 1]])[3 % (freiePositionen [[1, 1], [1, 0], [0, 1]]).length]? := by
  have h : 0 < (freiePositionen [[1, 1], [1, 0], [0, 1]]).length := by decide
  exact ⟨h, (findeFreiePosition_wrap [[1, 1], [1, 0], [0, 1]] 3 2 0 0 h).1⟩

/-- Helper for C8: once the first pickup carrying a given id is spliced out of
a list with pairwise distinct ids, no pickup with that id remains. -/
lemma keine_id_nach_entfernen (id : String) (l : List Pickup)
    (hnd : (l.map Pickup.id).Nodup) (i : Nat)
    (hfind : l.findIdx? (fun p => p.id == id) = some i) :
    ∀ p2 ∈ l.eraseIdx i, (p2.id == id) = false := by
  obtain ⟨hi, hq, hmin⟩ := List.findIdx?_eq_some_iff_getElem.mp hfind
  intro p2 hp2
  rw [List.eraseIdx_eq_take_drop_succ] at hp2
  rcases List.mem_append.mp hp2 with htake | hdrop
  · obtain ⟨j, hj, hgj⟩ := List.mem_iff_getElem.mp htake
    have hjlt : j < i := by
      have := hj
      rw [List.length_take] at this
      omega
    have := hmin j hjlt
    rw [List.getElem_take] at hgj
    rw [hgj] at this
    simpa using this
  · obtain ⟨j, hj, hgj⟩ := List.mem_iff_getElem.mp hdrop
    have hjl : i + 1 + j < l.length := by
      have := hj
      rw [List.length_drop] at this
      omega
    rw [List.getElem_drop] at hgj
    by_contra hcon
    rw [Bool.not_eq_false, beq_iff_eq] at hcon
    have hid1 : (l.map Pickup.id).get ⟨i + 1 + j, by simpa using hjl⟩ =
        (l.map Pickup.id).get ⟨i, by simpa using hi⟩ := by
      simp only [List.get_eq_getElem]
      rw [List.getElem_map, List.getElem_map, hgj, hcon]
      exact (beq_iff_eq.mp hq).symm
    have := (List.Nodup.getElem_inj_iff hnd).mp hid1
    omega

/-- C8: applying the `pickup_collected` receiver action `entfernePickup` for
an id that is not in the pickup list leaves the whole game state (pickup
list and scene) unchanged and raises no error; consequently — under the
protocol's invariant that pickup ids are pairwise distinct — applying it
twice for the same id equals applying it once. -/
theorem entfernePickup_idempotent (id : String) (st : GameState)
    (hids : (st.pickups.map Pickup.id).Nodup) :
    ((∀ p ∈ st.pickups, p.id ≠ id) → entfernePickup id st = st) ∧
    entfernePickup id (entfernePickup id st) = entfernePickup id st := by
  constructor
  · intro h
    have hnone : st.pickups.findIdx? (fun p => p.id == id) = none :=
      List.findIdx?_eq_none_iff.mpr (fun p hp => by simpa using h p hp)
    simp [entfernePickup, hnone]
  · cases hfind : st.pickups.findIdx? (fun p => p.id == id) with
    | none => simp [entfernePickup, hfind]
    | some i =>
      obtain ⟨hi, _, _⟩ := List.findIdx?_eq_some_iff_getElem.mp hfind
      have hget := List.getElem?_eq_getElem hi
      have hnone2 : (st.pickups.eraseIdx i).findIdx? (fun p => p.id == id) = none :=
        List.findIdx?_eq_none_iff.mpr
          (keine_id_nach_entfernen id st.pickups hids i hfind)
      simp [entfernePickup, hfind, hget, hnone2]

/-- C8 witness: removing an absent id from a one-pickup state is a no-op. -/
theorem entfernePickup_idempotent_witness :
    ((([{ id := "a", typ := "AMMO", pos := (2, 2), model := "AMMO" }] :
        List Pickup).map Pickup.id).Nodup ∧
      (∀ p ∈ ([{ id := "a", typ := "AMMO", pos := (2, 2), model := "AMMO" }] :
        List Pickup), p.id ≠ "b")) ∧
    entfernePickup "b"
        { pickups := [{ id := "a", typ := "AMMO", pos := (2, 2), model := "AMMO" }]
          szene := some ["AMMO"] } =
      { pickups := [{ id := "a", typ := "AMMO", pos := (2, 2), model := "AMMO" }]
        szene := some ["AMMO"] } := by
  refine ⟨⟨by simp, by simp⟩, ?_⟩
  exact (entfernePickup_idempotent "b"
    { pickups := [{ id := "a", typ := "AMMO", pos := (2, 2), model := "AMMO" }]
      szene := some ["AMMO"] } (by simp)).1 (by simp)

/-! ### Grid write lemmas -/

/-- Helper: `getD` returns the stored element. -/
lemma getD_eq_some {α : Type} {l : List α} {y : Nat} {r : α} (d : α)
    (hr : l[y]? = some r) : l.getD y d = r := by
  rw [List.getD_eq_getElem?_getD, hr]
  rfl

/-- On an existing row, `jsSetZelle` is the total write `setzeZelle`. -/
lemma jsSetZelle_eq {lab : Grid} {y x v : Nat} (hy : y < lab.length) :
    jsSetZelle lab y x v = some (setzeZelle lab y x v) := by
  unfold jsSetZelle setzeZelle
  rw [List.getD_eq_getElem?_getD, List.getElem?_eq_getElem hy]
  rfl

/-- On an existing row, `jsSetBesucht` is the total write `setzeBesucht`. -/
lemma jsSetBesucht_eq {bes : List (List Bool)} {y x : Nat} {v : Bool}
    (hy : y < bes.length) :
    jsSetBesucht bes y x v = some (setzeBesucht bes y x v) := by
  unfold jsSetBesucht setzeBesucht
  rw [List.getD_eq_getElem?_getD, List.getElem?_eq_getElem hy]
  rfl

/-- An in-bounds write stores its value. -/
lemma zelle_setzeZelle_selbst {lab : Grid} {y x v : Nat} (hy : y < lab.length)
    (hx : x < (lab.getD y []).length) :
    zelle (setzeZelle lab y x v) y x = some v := by
  unfold zelle setzeZelle jsZeileSet
  rw [if_pos hx, List.getElem?_set_self hy, Option.some_bind]
  exact List.getElem?_set_self hx

/-- An in-bounds write leaves every other cell untouched. -/
lemma zelle_setzeZelle_andere {lab : Grid} {y x v y2 x2 : Nat}
    (hy : y < lab.length) (hx : x < (lab.getD y []).length)
    (hne : y2 ≠ y ∨ x2 ≠ x) :
    zelle (setzeZelle lab y x v) y2 x2 = zelle lab y2 x2 := by
  obtain ⟨r, hr⟩ : ∃ r, lab[y]? = some r := ⟨_, List.getElem?_eq_getElem hy⟩
  have hgd : lab.getD y [] = r := getD_eq_some [] hr
  unfold zelle setzeZelle jsZeileSet
  rw [hgd, if_pos (hgd ▸ hx)]
  by_cases hyy : y2 = y
  · subst hyy
    have hxx : x2 ≠ x := by tauto
    rw [List.getElem?_set_self hy, hr, Option.some_bind, Option.some_bind]
    exact List.getElem?_set_ne (Ne.symm hxx)
  · rw [List.getElem?_set_ne (Ne.symm hyy)]

/-- An in-bounds write preserves the grid dimensions. -/
lemma rechteck_setzeZelle {b h : Nat} {lab : Grid} {y x v : Nat}
    (hrect : RechteckGrid b h lab) (hy : y < lab.length)
    (hx : x < (lab.getD y []).length) :
    RechteckGrid b h (setzeZelle lab y x v) := by
  obtain ⟨r, hr⟩ : ∃ r, lab[y]? = some r := ⟨_, List.getElem?_eq_getElem hy⟩
  have hgd : lab.getD y [] = r := getD_eq_some [] hr
  obtain ⟨hlen, hrows⟩ := hrect
  constructor
  · simpa [setzeZelle] using hlen
  · intro r2 hr2
    unfold setzeZelle jsZeileSet at hr2
    rw [hgd, if_pos (hgd ▸ hx)] at hr2
    rcases List.mem_or_eq_of_mem_set hr2 with hmem | rfl
    · exact hrows r2 hmem
    · rw [List.length_set]
      exact hrows r (List.getElem?_mem hr)

/-- Opening a cell can only add open cells. -/
lemma offenMono_setzeZelle {lab : Grid} {y x : Nat} (hy : y < lab.length)
    (hx : x < (lab.getD y []).length) :
    OffenMono lab (setzeZelle lab y x 0) := by
  intro y2 x2 hopen
  by_cases heq : y2 = y ∧ x2 = x
  · obtain ⟨rfl, rfl⟩ := heq
    exact zelle_setzeZelle_selbst hy hx
  · rw [zelle_setzeZelle_andere hy hx (by tauto)]
    exact hopen

/-- `OffenMono` is reflexive. -/
lemma offenMono_refl (lab : Grid) : OffenMono lab lab := fun _ _ hc => hc

/-- `OffenMono` is transitive. -/
lemma offenMono_trans {g1 g2 g3 : Grid} (h1 : OffenMono g1 g2)
    (h2 : OffenMono g2 g3) : OffenMono g1 g3 :=
  fun y x hc => h2 y x (h1 y x hc)

/-- Reachability is monotone under opening cells. -/
lemma erreichbar_mono {g1 g2 : Grid} (hm : OffenMono g1 g2) {y x : Nat}
    (he : Erreichbar g1 y x) : Erreichbar g2 y x := by
  induction he with
  | wurzel hw => exact Erreichbar.wurzel (hm _ _ hw)
  | schritt _ hn ho ih => exact Erreichbar.schritt ih hn (hm _ _ ho)

/-- Opening a cell that is the root or adjacent to an open cell preserves
connectivity of all open cells to the root. -/
lemma zusammenhang_oeffne {lab : Grid} {y x : Nat} (hy : y < lab.length)
    (hx : x < (lab.getD y []).length)
    (hanker : (y = 1 ∧ x = 1) ∨
      ∃ y2 x2, Nachbar y2 x2 y x ∧ zelle lab y2 x2 = some 0)
    (hz : Zusammenhang lab) : Zusammenhang (setzeZelle lab y x 0) := by
  have hmono : OffenMono lab (setzeZelle lab y x 0) := offenMono_setzeZelle hy hx
  intro y2 x2 hopen
  by_cases heq : y2 = y ∧ x2 = x
  · obtain ⟨rfl, rfl⟩ := heq
    rcases hanker with ⟨rfl, rfl⟩ | ⟨y3, x3, hn, ho⟩
    · exact Erreichbar.wurzel (zelle_setzeZelle_selbst hy hx)
    · exact Erreichbar.schritt (erreichbar_mono hmono (hz y3 x3 ho)) hn
        (zelle_setzeZelle_selbst hy hx)
  · rw [zelle_setzeZelle_andere hy hx (by tauto)] at hopen
    exact erreichbar_mono hmono (hz y2 x2 hopen)

/-- Opening a strictly interior cell leaves the border walls in place. -/
lemma randWand_oeffne {b h : Nat} {lab : Grid} {y x : Nat}
    (hy : y < lab.length) (hx : x < (lab.getD y []).length)
    (hy0 : 0 < y) (hyh : y < 2 * h) (hx0 : 0 < x) (hxb : x < 2 * b)
    (hr : RandWand b h lab) : RandWand b h (setzeZelle lab y x 0) := by
  intro y2 x2 hy2 hx2 hrand
  rw [zelle_setzeZelle_andere hy hx (by omega)]
  exact hr y2 x2 hy2 hx2 hrand

/-! ### Shuffle, besucht bookkeeping and direction arithmetic -/

/-- A swap only rearranges elements. -/
lemma tausche_mem {α : Type} {l : List α} {i j : Nat} {p : α}
    (hp : p ∈ tausche l i j) : p ∈ l := by
  unfold tausche at hp
  split at hp
  · rename_i a b ha hb
    rcases List.mem_or_eq_of_mem_set hp with h2 | rfl
    · rcases List.mem_or_eq_of_mem_set h2 with h3 | rfl
      · exact h3
      · exact List.getElem?_mem hb
    · exact List.getElem?_mem ha
  · exact hp

/-- The shuffle loop only rearranges elements. -/
lemma mischenAux_mem {α : Type} {p : α} :
    ∀ (n : Nat) (arr : List α) (rng : Nat),
      p ∈ (mischenAux arr rng n).1 → p ∈ arr := by
  intro n
  induction n with
  | zero => intro arr rng hp; exact hp
  | succ k ih =>
    intro arr rng hp
    unfold mischenAux at hp
    exact tausche_mem (ih _ _ hp)

/-- `mischen` only rearranges elements. -/
lemma mischen_mem {α : Type} {p : α} {arr : List α} {rng : Nat}
    (hp : p ∈ (mischen arr rng).1) : p ∈ arr :=
  mischenAux_mem _ _ _ hp

/-- An in-bounds write preserves the `besucht` dimensions. -/
lemma besDims_setzeBesucht {b h : Nat} {bes : List (List Bool)} {y x : Nat}
    {v : Bool} (hdims : BesDims b h bes) (hy : y < bes.length)
    (hx : x < (bes.getD y []).length) :
    BesDims b h (setzeBesucht bes y x v) := by
  obtain ⟨r, hr⟩ : ∃ r, bes[y]? = some r := ⟨_, List.getElem?_eq_getElem hy⟩
  have hgd : bes.getD y [] = r := getD_eq_some [] hr
  obtain ⟨hlen, hrows⟩ := hdims
  constructor
  · simpa [setzeBesucht] using hlen
  · intro r2 hr2
    unfold setzeBesucht jsZeileSetB at hr2
    rw [hgd, if_pos (hgd ▸ hx)] at hr2
    rcases List.mem_or_eq_of_mem_set hr2 with hmem | rfl
    · exact hrows r2 hmem
    · rw [List.length_set]
      exact hrows r (List.getElem?_mem hr)

/-- Marking a fresh cell of one row removes one unvisited entry. -/
lemma countP_set_false_true {r : List Bool} {x : Nat} (hx : x < r.length)
    (hf : r.getD x false = false) :
    (r.set x true).countP (fun v => !v) + 1 = r.countP (fun v => !v) := by
  induction r generalizing x with
  | nil => simp at hx
  | cons a t ih =>
    cases x with
    | zero =>
      rw [List.getD_cons_zero] at hf
      subst hf
      simp [List.countP_cons]
    | succ k =>
      have hx2 : k < t.length := by simpa using hx
      have hf2 : t.getD k false = false := by simpa using hf
      rw [List.set_cons_succ]
      simp only [List.countP_cons]
      have := ih hx2 hf2
      omega

/-- Marking a fresh cell removes exactly one unvisited cell. -/
lemma unbesucht_setzeBesucht {bes : List (List Bool)} {y x : Nat}
    (hy : y < bes.length) (hx : x < (bes.getD y []).length)
    (hf : besuchtGet bes y x = false) :
    unbesucht (setzeBesucht bes y x true) + 1 = unbesucht bes := by
  induction bes generalizing y with
  | nil => simp at hy
  | cons r t ih =>
    cases y with
    | zero =>
      have hx2 : x < r.length := by simpa using hx
      have hf2 : r.getD x false = false := by
        simpa [besuchtGet] using hf
      unfold setzeBesucht
      rw [List.getD_cons_zero, List.set_cons_zero]
      unfold jsZeileSetB
      rw [if_pos hx2]
      simp only [unbesucht, unbesuchtZeile, List.map_cons, List.sum_cons]
      have := countP_set_false_true hx2 hf2
      omega
    | succ k =>
      have hy2 : k < t.length := by simpa using hy
      have hx2 : x < (t.getD k []).length := by simpa using hx
      have hf2 : besuchtGet t k x = false := by simpa [besuchtGet] using hf
      unfold setzeBesucht
      rw [List.getD_cons_succ, List.set_cons_succ]
      simp only [unbesucht, unbesuchtZeile, List.map_cons, List.sum_cons]
      have := ih hy2 hx2 hf2
      unfold setzeBesucht at this
      simp only [unbesucht, unbesuchtZeile] at this
      omega

/-- The fresh `besucht` matrix has one unvisited entry per logical cell. -/
lemma unbesucht_replicate (b h : Nat) :
    unbesucht (List.replicate h (List.replicate b false)) = h * b := by
  unfold unbesucht unbesuchtZeile
  rw [List.map_replicate, List.sum_replicate]
  have hrow : (List.replicate b false).countP (fun v => !v) = b := by
    have := List.countP_eq_length
      (l := List.replicate b false) (p := fun v => !v)
    rw [this.mpr]
    · exact List.length_replicate b false
    · intro a ha
      rw [List.eq_of_mem_replicate ha]
      rfl
  rw [hrow, smul_eq_mul]

/-- The fresh `besucht` matrix marks every cell unvisited. -/
lemma besuchtGet_replicate_false (b h y x : Nat) :
    besuchtGet (List.replicate h (List.replicate b false)) y x = false := by
  unfold besuchtGet
  rw [List.getD_eq_getElem?_getD (List.replicate h (List.replicate b false)) y,
    List.getElem?_replicate]
  by_cases hy : y < h
  · rw [if_pos hy]
    rw [show (some (List.replicate b false)).getD ([] : List Bool)
        = List.replicate b false from rfl]
    rw [List.getD_eq_getElem?_getD, List.getElem?_replicate]
    by_cases hx : x < b
    · rw [if_pos hx]; rfl
    · rw [if_neg hx]; rfl
  · rw [if_neg hy]; rfl

/-- Cells of the all-wall starting grid. -/
lemma zelle_replicate (m n y x v : Nat) :
    zelle (List.replicate m (List.replicate n v)) y x =
      if y < m ∧ x < n then some v else none := by
  unfold zelle
  rw [List.getElem?_replicate]
  by_cases hy : y < m
  · rw [if_pos hy, Option.some_bind, List.getElem?_replicate]
    by_cases hx : x < n
    · rw [if_pos hx, if_pos ⟨hy, hx⟩]
    · rw [if_neg hx, if_neg (by tauto)]
  · rw [if_neg hy, if_neg (by tauto)]
    rfl

/-- The position arithmetic of one guarded carving step, for each of the four
directions: the carved wall cell is strictly interior, the neighbour cell is
in cell range, the wall is adjacent to the current raster cell, and the
neighbour's raster cell is adjacent to the wall. -/
lemma richtung_arith (b h zx zy : Nat) (dx dy : Int)
    (hdir : (dx, dy) ∈ richtungen) (hzx : zx < b) (hzy : zy < h)
    (h1 : 0 ≤ (zx : Int) + dx) (h2 : (zx : Int) + dx < (b : Int))
    (h3 : 0 ≤ (zy : Int) + dy) (h4 : (zy : Int) + dy < (h : Int)) :
    0 < (2 * (zy : Int) + 1 + dy).toNat ∧
    (2 * (zy : Int) + 1 + dy).toNat < 2 * h ∧
    0 < (2 * (zx : Int) + 1 + dx).toNat ∧
    (2 * (zx : Int) + 1 + dx).toNat < 2 * b ∧
    ((zx : Int) + dx).toNat < b ∧ ((zy : Int) + dy).toNat < h ∧
    Nachbar (2 * zy + 1) (2 * zx + 1) (2 * (zy : Int) + 1 + dy).toNat
      (2 * (zx : Int) + 1 + dx).toNat ∧
    Nachbar (2 * (zy : Int) + 1 + dy).toNat (2 * (zx : Int) + 1 + dx).toNat
      (2 * ((zy : Int) + dy).toNat + 1) (2 * ((zx : Int) + dx).toNat + 1) := by
  simp only [richtungen, List.mem_cons, List.mem_singleton, Prod.mk.injEq,
    List.not_mem_nil, or_false] at hdir
  simp only [Nachbar]
  rcases hdir with ⟨rfl, rfl⟩ | ⟨rfl, rfl⟩ | ⟨rfl, rfl⟩ | ⟨rfl, rfl⟩ <;> omega

/-- At least two adjacent corridors yield one open neighbour. -/
lemma nachbarGaenge_ex {lab : Grid} {b h y x : Nat}
    (hcount : 2 ≤ zaehleNachbarGaenge lab (2 * b + 1) (2 * h + 1) y x) :
    ∃ y2 x2, Nachbar y2 x2 y x ∧ zelle lab y2 x2 = some 0 := by
  by_cases c1 : 0 < y ∧ zelle lab (y - 1) x = some 0
  · obtain ⟨hy, hc⟩ := c1
    exact ⟨y - 1, x, by unfold Nachbar; omega, hc⟩
  by_cases c2 : y < 2 * h + 1 - 1 ∧ zelle lab (y + 1) x = some 0
  · obtain ⟨hy, hc⟩ := c2
    exact ⟨y + 1, x, by unfold Nachbar; omega, hc⟩
  by_cases c3 : 0 < x ∧ zelle lab y (x - 1) = some 0
  · obtain ⟨hx, hc⟩ := c3
    exact ⟨y, x - 1, by unfold Nachbar; omega, hc⟩
  by_cases c4 : x < 2 * b + 1 - 1 ∧ zelle lab y (x + 1) = some 0
  · obtain ⟨hx, hc⟩ := c4
    exact ⟨y, x + 1, by unfold Nachbar; omega, hc⟩
  · exfalso
    unfold zaehleNachbarGaenge at hcount
    rw [if_neg c1, if_neg c2, if_neg c3, if_neg c4] at hcount
    omega

/-- Row length of a rectangular grid. -/
lemma zeilenLaenge {b h : Nat} {lab : Grid} (hrect : RechteckGrid b h lab)
    {y : Nat} (hy : y < lab.length) : (lab.getD y []).length = 2 * b + 1 := by
  obtain ⟨r, hr⟩ : ∃ r, lab[y]? = some r := ⟨_, List.getElem?_eq_getElem hy⟩
  rw [getD_eq_some [] hr]
  exact hrect.2 r (List.getElem?_mem hr)

/-- Row length of the `besucht` matrix. -/
lemma besZeilenLaenge {b h : Nat} {bes : List (List Bool)}
    (hdims : BesDims b h bes) {y : Nat} (hy : y < bes.length) :
    (bes.getD y []).length = b := by
  obtain ⟨r, hr⟩ : ∃ r, bes[y]? = some r := ⟨_, List.getElem?_eq_getElem hy⟩
  rw [getD_eq_some [] hr]
  exact hdims.2 r (List.getElem?_mem hr)

/-! ### The carving pass preserves dimensions, borders and connectivity -/

/-- The direction loop of `graben`: given that the abstract recursive call
`rec` succeeds on every fresh in-range cell that is anchored to an open cell
(preserving dimensions, borders, connectivity, open cells and the unvisited
count) as long as fewer than `n` cells are unvisited, the loop does the
same, provided the current raster cell is already open. -/
lemma grabenSchleife_gut (b h : Nat) (rec : Nat → Nat → MZ → Option MZ)
    (n : Nat)
    (hrec : ∀ zx zy st, zx < b → zy < h →
      RechteckGrid b h st.lab → BesDims b h st.bes →
      besuchtGet st.bes zy zx = false → unbesucht st.bes < n →
      Zusammenhang st.lab → RandWand b h st.lab →
      ((zy = 0 ∧ zx = 0) ∨ ∃ y2 x2, Nachbar y2 x2 (2 * zy + 1) (2 * zx + 1) ∧
        zelle st.lab y2 x2 = some 0) →
      ∃ st2, rec zx zy st = some st2 ∧ RechteckGrid b h st2.lab ∧
        BesDims b h st2.bes ∧ OffenMono st.lab st2.lab ∧
        Zusammenhang st2.lab ∧ RandWand b h st2.lab ∧
        unbesucht st2.bes ≤ unbesucht st.bes) :
    ∀ (dirs : List (Int × Int)), (∀ p ∈ dirs, p ∈ richtungen) →
      ∀ (zx zy : Nat) (st : MZ), zx < b → zy < h →
      RechteckGrid b h st.lab → BesDims b h st.bes →
      unbesucht st.bes < n → Zusammenhang st.lab → RandWand b h st.lab →
      zelle st.lab (2 * zy + 1) (2 * zx + 1) = some 0 →
      ∃ st2, grabenSchleife b h rec zx zy dirs st = some st2 ∧
        RechteckGrid b h st2.lab ∧ BesDims b h st2.bes ∧
        OffenMono st.lab st2.lab ∧ Zusammenhang st2.lab ∧
        RandWand b h st2.lab ∧ unbesucht st2.bes ≤ unbesucht st.bes := by
  intro dirs
  induction dirs with
  | nil =>
    intro _ zx zy st _ _ hrect hdims hunb hzus hrand _
    exact ⟨st, rfl, hrect, hdims, offenMono_refl _, hzus, hrand, le_refl _⟩
  | cons d rest ih =>
    obtain ⟨dx, dy⟩ := d
    intro hdirs zx zy st hzx hzy hrect hdims hunb hzus hrand hopen
    have hdmem : (dx, dy) ∈ richtungen := hdirs _ (List.mem_cons_self _ _)
    have hrest : ∀ p ∈ rest, p ∈ richtungen :=
      fun p hp => hdirs p (List.mem_cons_of_mem _ hp)
    simp only [grabenSchleife]
    by_cases hguard : 0 ≤ (zx : Int) + dx ∧ (zx : Int) + dx < (b : Int) ∧
        0 ≤ (zy : Int) + dy ∧ (zy : Int) + dy < (h : Int) ∧
        besuchtGet st.bes ((zy : Int) + dy).toNat ((zx : Int) + dx).toNat = false
    · rw [if_pos hguard]
      obtain ⟨hg1, hg2, hg3, hg4, hg5⟩ := hguard
      obtain ⟨ha1, ha2, ha3, ha4, ha5, ha6, ha7, ha8⟩ :=
        richtung_arith b h zx zy dx dy hdmem hzx hzy hg1 hg2 hg3 hg4
      have hylen : (2 * (zy : Int) + 1 + dy).toNat < st.lab.length := by
        rw [hrect.1]; omega
      have hxlen : (2 * (zx : Int) + 1 + dx).toNat <
          (st.lab.getD (2 * (zy : Int) + 1 + dy).toNat []).length := by
        rw [zeilenLaenge hrect hylen]; omega
      have hmono1 : OffenMono st.lab
          (setzeZelle st.lab (2 * (zy : Int) + 1 + dy).toNat
            (2 * (zx : Int) + 1 + dx).toNat 0) :=
        offenMono_setzeZelle hylen hxlen
      obtain ⟨st3, hst3, hrect3, hdims3, hmono3, hzus3, hrand3, hunb3⟩ :=
        hrec ((zx : Int) + dx).toNat ((zy : Int) + dy).toNat
          (MZ.mk (setzeZelle st.lab (2 * (zy : Int) + 1 + dy).toNat
            (2 * (zx : Int) + 1 + dx).toNat 0) st.bes st.rng)
          ha5 ha6
          (rechteck_setzeZelle hrect hylen hxlen)
          hdims hg5 hunb
          (zusammenhang_oeffne hylen hxlen
            (Or.inr ⟨2 * zy + 1, 2 * zx + 1, ha7, hopen⟩) hzus)
          (randWand_oeffne hylen hxlen ha1 ha2 ha3 ha4 hrand)
          (Or.inr ⟨(2 * (zy : Int) + 1 + dy).toNat,
            (2 * (zx : Int) + 1 + dx).toNat, ha8,
            zelle_setzeZelle_selbst hylen hxlen⟩)
      simp only [jsSetZelle_eq hylen, hst3]
      obtain ⟨st4, hst4, hrect4, hdims4, hmono4, hzus4, hrand4, hunb4⟩ :=
        ih hrest zx zy st3 hzx hzy hrect3 hdims3
          (lt_of_le_of_lt hunb3 hunb) hzus3 hrand3
          (hmono3 _ _ (hmono1 _ _ hopen))
      exact ⟨st4, hst4, hrect4, hdims4,
        offenMono_trans (offenMono_trans hmono1 hmono3) hmono4,
        hzus4, hrand4, le_trans hunb4 (le_trans hunb3 (le_refl _))⟩
    · rw [if_neg hguard]
      exact ih hrest zx zy st hzx hzy hrect hdims hunb hzus hrand hopen

/-- The carving recursion `graben` terminates within its fuel on every fresh
in-range anchored cell and preserves dimensions, borders, connectivity, open
cells and the unvisited count. -/
lemma graben_gut (b h : Nat) : ∀ (fuel zx zy : Nat) (st : MZ),
    zx < b → zy < h → RechteckGrid b h st.lab → BesDims b h st.bes →
    besuchtGet st.bes zy zx = false → unbesucht st.bes < fuel →
    Zusammenhang st.lab → RandWand b h st.lab →
    ((zy = 0 ∧ zx = 0) ∨ ∃ y2 x2, Nachbar y2 x2 (2 * zy + 1) (2 * zx + 1) ∧
      zelle st.lab y2 x2 = some 0) →
    ∃ st2, graben b h fuel zx zy st = some st2 ∧ RechteckGrid b h st2.lab ∧
      BesDims b h st2.bes ∧ OffenMono st.lab st2.lab ∧ Zusammenhang st2.lab ∧
      RandWand b h st2.lab ∧ unbesucht st2.bes ≤ unbesucht st.bes := by
  intro fuel
  induction fuel with
  | zero =>
    intro zx zy st _ _ _ _ _ hunb _ _ _
    omega
  | succ f ih =>
    intro zx zy st hzx hzy hrect hdims hfresh hunb hzus hrand hanker
    have hby : zy < st.bes.length := by rw [hdims.1]; exact hzy
    have hbx : zx < (st.bes.getD zy []).length := by
      rw [besZeilenLaenge hdims hby]; exact hzx
    have hly : 2 * zy + 1 < st.lab.length := by rw [hrect.1]; omega
    have hlx : 2 * zx + 1 < (st.lab.getD (2 * zy + 1) []).length := by
      rw [zeilenLaenge hrect hly]; omega
    have hunb2 := unbesucht_setzeBesucht hby hbx hfresh
    have hopen2 : zelle (setzeZelle st.lab (2 * zy + 1) (2 * zx + 1) 0)
        (2 * zy + 1) (2 * zx + 1) = some 0 := zelle_setzeZelle_selbst hly hlx
    have hzus2 : Zusammenhang (setzeZelle st.lab (2 * zy + 1) (2 * zx + 1) 0) := by
      refine zusammenhang_oeffne hly hlx ?_ hzus
      rcases hanker with ⟨hzy0, hzx0⟩ | hex
      · subst hzy0; subst hzx0
        exact Or.inl ⟨rfl, rfl⟩
      · exact Or.inr hex
    have hrand2 : RandWand b h (setzeZelle st.lab (2 * zy + 1) (2 * zx + 1) 0) :=
      randWand_oeffne hly hlx (by omega) (by omega) (by omega) (by omega) hrand
    obtain ⟨st2, hst2, hrect2, hdims2, hmono2, hzus3, hrand3, hunb3⟩ :=
      grabenSchleife_gut b h (graben b h f) f ih (mischen richtungen st.rng).1
        (fun p hp => mischen_mem hp) zx zy
        (MZ.mk (setzeZelle st.lab (2 * zy + 1) (2 * zx + 1) 0)
          (setzeBesucht st.bes zy zx true) (mischen richtungen st.rng).2)
        hzx hzy
        (rechteck_setzeZelle hrect hly hlx)
        (besDims_setzeBesucht hdims hby hbx)
        (show unbesucht (setzeBesucht st.bes zy zx true) < f by omega)
        hzus2 hrand2 hopen2
    refine ⟨st2, ?_, hrect2, hdims2,
      offenMono_trans (offenMono_setzeZelle hly hlx) hmono2, hzus3, hrand3,
      ?_⟩
    · simp only [graben, jsSetBesucht_eq hby, jsSetZelle_eq hly]
      exact hst2
    · have hle : unbesucht st2.bes ≤ unbesucht (setzeBesucht st.bes zy zx true) :=
        hunb3
      omega

/-- One cell of the loop-opening pass never errs and preserves dimensions,
borders and connectivity: it opens a wall only when at least two adjacent
corridors anchor it. -/
lemma durchbruchZelle_gut {b h : Nat} {lab : Grid} (rng : Nat) {y x : Nat}
    (hy0 : 0 < y) (hyh : y < 2 * h) (hx0 : 0 < x) (hxb : x < 2 * b)
    (hrect : RechteckGrid b h lab) (hzus : Zusammenhang lab)
    (hrand : RandWand b h lab) :
    ∃ lab2 rng2,
      durchbruchZelle (2 * b + 1) (2 * h + 1) lab rng y x = some (lab2, rng2) ∧
      RechteckGrid b h lab2 ∧ OffenMono lab lab2 ∧ Zusammenhang lab2 ∧
      RandWand b h lab2 := by
  have hy : y < lab.length := by rw [hrect.1]; omega
  have hx : x < (lab.getD y []).length := by rw [zeilenLaenge hrect hy]; omega
  unfold durchbruchZelle
  simp only []
  by_cases h1 : zelle lab y x = some 1
  · rw [if_pos h1]
    by_cases h2 : unterDurchbruchRate (seededRandomStep rng).2 = true
    · rw [if_pos h2]
      by_cases h3 : 2 ≤ zaehleNachbarGaenge lab (2 * b + 1) (2 * h + 1) y x
      · rw [if_pos h3, jsSetZelle_eq hy]
        exact ⟨setzeZelle lab y x 0, (seededRandomStep rng).1, rfl,
          rechteck_setzeZelle hrect hy hx, offenMono_setzeZelle hy hx,
          zusammenhang_oeffne hy hx (Or.inr (nachbarGaenge_ex h3)) hzus,
          randWand_oeffne hy hx hy0 hyh hx0 hxb hrand⟩
      · rw [if_neg h3]
        exact ⟨lab, (seededRandomStep rng).1, rfl, hrect, offenMono_refl _,
          hzus, hrand⟩
    · rw [if_neg h2]
      exact ⟨lab, (seededRandomStep rng).1, rfl, hrect, offenMono_refl _,
        hzus, hrand⟩
  · rw [if_neg h1]
    exact ⟨lab, rng, rfl, hrect, offenMono_refl _, hzus, hrand⟩

/-- One row of the loop-opening pass. -/
lemma durchbruchZeile_gut {b h : Nat} {y : Nat} (hy0 : 0 < y) (hyh : y < 2 * h) :
    ∀ (xs : List Nat), (∀ x ∈ xs, 0 < x ∧ x < 2 * b) →
      ∀ (lab : Grid) (rng : Nat), RechteckGrid b h lab → Zusammenhang lab →
      RandWand b h lab →
      ∃ lab2 rng2,
        durchbruchZeile (2 * b + 1) (2 * h + 1) y xs (lab, rng) = some (lab2, rng2) ∧
        RechteckGrid b h lab2 ∧ OffenMono lab lab2 ∧ Zusammenhang lab2 ∧
        RandWand b h lab2 := by
  intro xs
  induction xs with
  | nil =>
    intro _ lab rng hrect hzus hrand
    exact ⟨lab, rng, rfl, hrect, offenMono_refl _, hzus, hrand⟩
  | cons x rest ih =>
    intro hxs lab rng hrect hzus hrand
    obtain ⟨hx0, hxb⟩ := hxs x (List.mem_cons_self _ _)
    obtain ⟨lab2, rng2, hcell, hrect2, hmono2, hzus2, hrand2⟩ :=
      durchbruchZelle_gut rng hy0 hyh hx0 hxb hrect hzus hrand
    obtain ⟨lab3, rng3, hrest, hrect3, hmono3, hzus3, hrand3⟩ :=
      ih (fun p hp => hxs p (List.mem_cons_of_mem _ hp)) lab2 rng2 hrect2
        hzus2 hrand2
    refine ⟨lab3, rng3, ?_, hrect3, offenMono_trans hmono2 hmono3, hzus3,
      hrand3⟩
    simp only [durchbruchZeile, hcell]
    exact hrest

/-- The whole loop-opening pass. -/
lemma durchbruchPass_gut {b h : Nat} (hb : 1 ≤ b) :
    ∀ (ys : List Nat), (∀ y ∈ ys, 0 < y ∧ y < 2 * h) →
      ∀ (lab : Grid) (rng : Nat), RechteckGrid b h lab → Zusammenhang lab →
      RandWand b h lab →
      ∃ lab2 rng2,
        durchbruchPass (2 * b + 1) (2 * h + 1) ys (lab, rng) = some (lab2, rng2) ∧
        RechteckGrid b h lab2 ∧ OffenMono lab lab2 ∧ Zusammenhang lab2 ∧
        RandWand b h lab2 := by
  intro ys
  induction ys with
  | nil =>
    intro _ lab rng hrect hzus hrand
    exact ⟨lab, rng, rfl, hrect, offenMono_refl _, hzus, hrand⟩
  | cons y rest ih =>
    intro hys lab rng hrect hzus hrand
    obtain ⟨hy0, hyh⟩ := hys y (List.mem_cons_self _ _)
    obtain ⟨lab2, rng2, hzeile, hrect2, hmono2, hzus2, hrand2⟩ :=
      durchbruchZeile_gut hy0 hyh (List.range' 1 (2 * b + 1 - 2))
        (fun p hp => by rw [List.mem_range'_1] at hp; omega)
        lab rng hrect hzus hrand
    obtain ⟨lab3, rng3, hrest, hrect3, hmono3, hzus3, hrand3⟩ :=
      ih (fun p hp => hys p (List.mem_cons_of_mem _ hp)) lab2 rng2 hrect2
        hzus2 hrand2
    refine ⟨lab3, rng3, ?_, hrect3, offenMono_trans hmono2 hmono3, hzus3,
      hrand3⟩
    simp only [durchbruchPass, hzeile]
    exact hrest

/-- `generateMaze` succeeds for positive cell dimensions and produces a
rectangular, fully wall-bordered grid whose open cells are all reachable
from the root cell (1,1). -/
lemma generateMaze_gut (b h s g : Nat) (hb : 1 ≤ b) (hh : 1 ≤ h) :
    ∃ lab rng, generateMaze b h s g = some (lab, rng) ∧
      RechteckGrid b h lab ∧ Zusammenhang lab ∧ RandWand b h lab := by
  have hrect0 : RechteckGrid b h
      (List.replicate (2 * h + 1) (List.replicate (2 * b + 1) 1)) := by
    refine ⟨List.length_replicate _ _, ?_⟩
    intro r hr
    rw [List.eq_of_mem_replicate hr]
    exact List.length_replicate _ _
  have hzus0 : Zusammenhang
      (List.replicate (2 * h + 1) (List.replicate (2 * b + 1) 1)) := by
    intro y x hopen
    rw [zelle_replicate] at hopen
    split at hopen <;> simp_all
  have hrand0 : RandWand b h
      (List.replicate (2 * h + 1) (List.replicate (2 * b + 1) 1)) := by
    intro y x hy hx _
    rw [zelle_replicate, if_pos ⟨by omega, by omega⟩]
  have hdims0 : BesDims b h (List.replicate h (List.replicate b false)) := by
    refine ⟨List.length_replicate _ _, ?_⟩
    intro r hr
    rw [List.eq_of_mem_replicate hr]
    exact List.length_replicate _ _
  obtain ⟨st2, hst2, hrect2, _, _, hzus2, hrand2, _⟩ :=
    graben_gut b h (b * h + 1) 0 0
      (MZ.mk (List.replicate (2 * h + 1) (List.replicate (2 * b + 1) 1))
        (List.replicate h (List.replicate b false)) s)
      (by omega) (by omega) hrect0 hdims0
      (besuchtGet_replicate_false b h 0 0)
      (by rw [unbesucht_replicate, Nat.mul_comm]; omega)
      hzus0 hrand0 (Or.inl ⟨rfl, rfl⟩)
  obtain ⟨lab3, rng3, hpass, hrect3, _, hzus3, hrand3⟩ :=
    durchbruchPass_gut hb (List.range' 1 (2 * h + 1 - 2))
      (fun p hp => by rw [List.mem_range'_1] at hp; omega)
      st2.lab st2.rng hrect2 hzus2 hrand2
  refine ⟨lab3, rng3, ?_, hrect3, hzus3, hrand3⟩
  unfold generateMaze
  simp only [hst2, hpass]

/-- C2: every open cell of a maze generated with positive cell dimensions is
reachable from the root raster cell (1,1) (logical cell (0,0)) through
orthogonally adjacent open cells; in particular the loop-opening pass, which
only opens walls with at least two adjacent corridors, never disconnects the
carved spanning tree. -/
theorem generateMaze_zusammenhang (b h s g : Nat) (lab : Grid) (rng : Nat)
    (hb : 1 ≤ b) (hh : 1 ≤ h)
    (hgen : generateMaze b h s g = some (lab, rng)) (y x : Nat)
    (hopen : zelle lab y x = some 0) : Erreichbar lab y x := by
  obtain ⟨lab2, rng2, hg, _, hzus, _⟩ := generateMaze_gut b h s g hb hh
  rw [hgen, Option.some.injEq, Prod.mk.injEq] at hg
  obtain ⟨rfl, rfl⟩ := hg
  exact hzus y x hopen

/-- C2 witness: the 1×1 maze from seed 0 and its open root cell. -/
theorem generateMaze_zusammenhang_witness :
    ((1 : Nat) ≤ 1 ∧
      generateMaze 1 1 0 0 =
        some ([[1, 1, 1], [1, 0, 1], [1, 1, 1]], 1199730143) ∧
      zelle [[1, 1, 1], [1, 0, 1], [1, 1, 1]] 1 1 = some 0) ∧
    Erreichbar [[1, 1, 1], [1, 0, 1], [1, 1, 1]] 1 1 :=
  ⟨⟨le_refl 1, by decide, rfl⟩,
    generateMaze_zusammenhang 1 1 0 0 [[1, 1, 1], [1, 0, 1], [1, 1, 1]]
      1199730143 (le_refl 1) (le_refl 1) (by decide) 1 1 rfl⟩

/-- C10: every border cell (row 0, row `2*hoehe`, column 0, column
`2*breite`) of a maze generated with positive cell dimensions is a wall: the
initial fill is all wall, carving writes only interior cells, and the
loop-opening pass ranges only over indices `1 .. dimension-2`. -/
theorem generateMaze_randWand (b h s g : Nat) (lab : Grid) (rng : Nat)
    (hb : 1 ≤ b) (hh : 1 ≤ h)
    (hgen : generateMaze b h s g = some (lab, rng)) :
    RandWand b h lab := by
  obtain ⟨lab2, rng2, hg, _, _, hrand⟩ := generateMaze_gut b h s g hb hh
  rw [hgen, Option.some.injEq, Prod.mk.injEq] at hg
  obtain ⟨rfl, rfl⟩ := hg
  exact hrand

/-- C10 witness: the 1×1 maze from seed 1 has an all-wall border. -/
theorem generateMaze_randWand_witness :
    ((1 : Nat) ≤ 1 ∧
      generateMaze 1 1 1 0 =
        some ([[1, 1, 1], [1, 0, 1], [1, 1, 1]], 1199730144)) ∧
    RandWand 1 1 [[1, 1, 1], [1, 0, 1], [1, 1, 1]] :=
  ⟨⟨le_refl 1, by decide⟩,
    generateMaze_randWand 1 1 1 0 [[1, 1, 1], [1, 0, 1], [1, 1, 1]]
      1199730144 (le_refl 1) (le_refl 1) (by decide)⟩

/-- C3 counterexample: `generateMaze` is not total on all non-negative
inputs.  With `hoehe = 0` the call throws a TypeError (`besucht` has no row
0, so `besucht[0][0] = true` dereferences `undefined`), and with
`breite = 0, hoehe = 1` the returned rows have lengths `[1, 2, 1]` — the
write `labyrinth[1][1] = 0` extends row 1 past the nominal raster width 1,
so the result is not a bordered grid of the nominal dimensions. -/
theorem generateMaze_total_gegenbeispiel :
    generateMaze 5 0 12345 0 = none ∧
    (generateMaze 0 1 7 0).map (fun p => p.1.map List.length) =
      some [1, 2, 1] := by
  refine ⟨by decide, by decide⟩

/-- C3 (amended): for `breite ≥ 1` and `hoehe ≥ 1` the generator is total —
no error is thrown — and returns a grid of exactly `(2*hoehe+1)` rows of
length `(2*breite+1)`.  (For `hoehe = 0` it throws a TypeError; for
`breite = 0, hoehe ≥ 1` it returns a grid with row 1 longer than the nominal
width; see the counterexample.) -/
theorem generateMaze_total (b h s g : Nat) (hb : 1 ≤ b) (hh : 1 ≤ h) :
    (generateMaze b h s g).isSome = true ∧
    ∀ lab rng, generateMaze b h s g = some (lab, rng) →
      lab.length = 2 * h + 1 ∧ ∀ r ∈ lab, r.length = 2 * b + 1 := by
  obtain ⟨lab2, rng2, hg, hrect, _, _⟩ := generateMaze_gut b h s g hb hh
  refine ⟨by rw [hg]; rfl, ?_⟩
  intro lab rng hgen
  rw [hgen, Option.some.injEq, Prod.mk.injEq] at hg
  obtain ⟨rfl, rfl⟩ := hg
  exact ⟨hrect.1, hrect.2⟩

/-- C3 witness: dimensions 1×1 with seed 2 succeed. -/
theorem generateMaze_total_witness :
    ((1 : Nat) ≤ 1 ∧ (1 : Nat) ≤ 1) ∧
    (generateMaze 1 1 2 0).isSome = true :=
  ⟨⟨le_refl 1, le_refl 1⟩,
    (generateMaze_total 1 1 2 0 (le_refl 1) (le_refl 1)).1⟩

end RetroLabyrinth
